import Mathlib

/-
Shallow embedding of the m17n-orm repository: the ORM core module
(create / data / languageData / setTransport) and the SQL ("relational")
transport (get / save / saveWithLanguage / searchByField).

JavaScript features are modelled explicitly:
  - optional values are Option, with JS truthiness made explicit
    (a missing value and the empty string are falsy; the number 0 is falsy;
    an array is always truthy, even when empty);
  - a JS object used as a string-keyed record is an ordered association
    list, with assignment overwriting an existing key in place and
    appending a new key at the end;
  - string concatenation of an array interpolates its elements joined by
    commas, and an undefined value interpolates as "undefined";
  - a Deferred settles at most once: the first resolve/reject wins.
-/

/-- A JS value as it appears on entity instances and in query payloads. -/
inductive Value where
  | undef
  | num (n : Int)
  | str (s : String)
  | strs (xs : List String)
deriving DecidableEq, Repr

/-- A result row from the relational store: column name to value. -/
def Row : Type := List (String × Value)

/-- The per-entity-type descriptor, i.e. the statics carried by a
constructor function: taxonomyName, fields, and the optional
languageFields (absent when the type declares no per-locale data). -/
structure Ctor where
  taxonomyName : String
  fields : List String
  languageFields : Option (List String)
deriving DecidableEq, Repr

/-- An entity instance: optional id, optional language tag, the instance's
OWN languageFields property when one was set on the object itself (as
distinct from the declaration on its constructor), and the remaining
properties as a total map (a missing property reads as undef). -/
structure EntityInst where
  id : Option Int
  language : Option String
  languageFieldsProp : Option (List String)
  props : String → Value

/-- JS truthiness of an optional string: undefined and "" are falsy. -/
def jsTruthyStr : Option String → Bool
  | none => false
  | some s => !(s == "")

/-- JS truthiness of an optional number: undefined and 0 are falsy. -/
def jsTruthyId : Option Int → Bool
  | none => false
  | some n => !(n == 0)

/-- Property read object[k], uniform over the typed instance fields and
the untyped remainder. -/
def EntityInst.propGet (o : EntityInst) (k : String) : Value :=
  if k == "id" then
    match o.id with
    | none => .undef
    | some n => .num n
  else if k == "language" then
    match o.language with
    | none => .undef
    | some s => .str s
  else if k == "languageFields" then
    match o.languageFieldsProp with
    | none => .undef
    | some xs => .strs xs
  else o.props k

/-- JS object assignment m[k] = v on an ordered association list:
overwrite in place when the key exists, append otherwise. -/
def jsSetKey {α : Type} (m : List (String × α)) (k : String) (v : α) : List (String × α) :=
  if m.any (fun p => p.1 == k) then
    m.map (fun p => if p.1 == k then (k, v) else p)
  else
    m ++ [(k, v)]

/-- The key list of a JS object modelled as an association list. -/
def jsKeys {α : Type} (m : List (String × α)) : List String :=
  m.map Prod.fst

namespace Orm

/-- exports.data: project an instance onto its constructor's declared
fields, building the payload object field by field. -/
def data (c : Ctor) (o : EntityInst) : List (String × Value) :=
  c.fields.foldl (fun values f => jsSetKey values f (o.propGet f)) []

/-- exports.languageData: project an instance onto its constructor's
declared languageFields; when the constructor declares none (the value is
undefined, hence falsy) the loop is skipped and the empty object returned.
An empty declared array is truthy in JS, so it runs the (empty) loop. -/
def languageData (c : Ctor) (o : EntityInst) : List (String × Value) :=
  match c.languageFields with
  | none => []
  | some fs => fs.foldl (fun values f => jsSetKey values f (o.propGet f)) []

/-- A JS value held by a module object: a function, or plain data. -/
inductive JsVal where
  | fnVal (n : Nat)
  | strVal (s : String)
  | numVal (n : Int)
  | undefVal
deriving DecidableEq, Repr

/-- The JS typeof operator applied to a string value: always "string".
In setTransport the operand of typeof is the loop variable key, which is
a property NAME (a string), whatever the property's value is. -/
def jsTypeofString (_k : String) : String := "string"

/-- transport.hasOwnProperty(key) for a module modelled as an ordered
association list of its own enumerable properties. -/
def hasOwnKey (tr : List (String × JsVal)) (k : String) : Bool :=
  tr.any (fun p => p.1 == k)

/-- exports.setTransport: for (key in transport) copy transport[key] onto
exports when transport.hasOwnProperty(key) and typeof key is the string
"function". The source tests typeof key, the key string itself, not
typeof transport[key]. -/
def setTransport (ex tr : List (String × JsVal)) : List (String × JsVal) :=
  tr.foldl
    (fun acc kv =>
      if hasOwnKey tr kv.1 && (jsTypeofString kv.1 == "function") then
        jsSetKey acc kv.1 kv.2
      else acc)
    ex

end Orm

namespace SqlTransport

/-- String interpolation of constructor.fields (a JS array): elements
joined by commas. -/
def fieldsStr (c : Ctor) : String :=
  String.intercalate "," c.fields

/-- String interpolation of constructor.languageFields: comma-joined when
present, the text "undefined" when the constructor declares none. -/
def languageFieldsStr (c : Ctor) : String :=
  match c.languageFields with
  | none => "undefined"
  | some fs => String.intercalate "," fs

/-- The base-relation upsert statement text used by save and
saveWithLanguage. -/
def baseUpsertSql (c : Ctor) : String :=
  "INSERT INTO " ++ c.taxonomyName ++ " SET ? ON DUPLICATE KEY UPDATE"

/-- The language-relation upsert statement text used by saveWithLanguage. -/
def langUpsertSql (c : Ctor) : String :=
  "INSERT INTO " ++ c.taxonomyName ++ "_language SET ? ON DUPLICATE KEY UPDATE"

/-- The write plan chosen by exports.save: either the transactional
two-statement protocol of saveWithLanguage, or a single non-transactional
upsert on the write client. -/
inductive SavePlan where
  | withLanguage (baseSql : String) (baseVals : List (String × Value))
      (langSql : String) (langVals : List (String × Value))
  | singleUpsert (sql : String) (vals : List (String × Value))
deriving DecidableEq, Repr

/-- exports.save dispatch: the source tests object.language and
object.languageFields, i.e. the instance's own property, not
constructor.languageFields. -/
def save (c : Ctor) (o : EntityInst) : SavePlan :=
  if jsTruthyStr o.language && o.languageFieldsProp.isSome then
    .withLanguage (baseUpsertSql c) (Orm.data c o) (langUpsertSql c) (Orm.languageData c o)
  else
    .singleUpsert (baseUpsertSql c) (Orm.data c o)

/-- The id back-assignment in the save callbacks: when the object has no
truthy id and the result carries a truthy insertId, assign it; otherwise
leave the object untouched. insertId 0 models an absent or falsy
result.insertId. -/
def applyInsertId (o : EntityInst) (insertId : Int) : EntityInst :=
  if !jsTruthyId o.id && !(insertId == 0) then
    { o with id := some insertId }
  else o

/-- The settled state of the Deferred returned by save. -/
inductive SaveOutcome where
  | rejected (e : Nat)
  | resolvedWith (o : EntityInst)

/-- The success/error callback shared in shape by the non-transactional
save and the commit callback of saveWithLanguage: reject with the backend
error, or assign the id back and resolve with the (updated) object. -/
def saveCallback (o : EntityInst) (err : Option Nat) (insertId : Int) : SaveOutcome :=
  match err with
  | some e => .rejected e
  | none => .resolvedWith (applyInsertId o insertId)

/-- The mutable state observed by the per-statement error handler inside
saveWithLanguage: the transaction flag and rollback count (trans.rollback
marks the transaction rolled back, per the write-queue library), plus the
first rejection recorded on the save Deferred (a Deferred settles once). -/
structure SaveTxnState where
  rolledback : Bool
  rollbacks : Nat
  rejectedWith : Option Nat
deriving DecidableEq, Repr

/-- The onError handler of saveWithLanguage: on a truthy error with the
transaction not yet rolled back, roll back and reject the save with that
error; otherwise do nothing. -/
def onError (st : SaveTxnState) (err : Option Nat) : SaveTxnState :=
  match err with
  | none => st
  | some e =>
    if st.rolledback then st
    else
      { rolledback := true
        rollbacks := st.rollbacks + 1
        rejectedWith :=
          match st.rejectedWith with
          | some e0 => some e0
          | none => some e }

/-- Feed the sequence of per-statement callback results, in arrival
order, through onError starting from a fresh transaction. -/
def runSteps (errs : List (Option Nat)) : SaveTxnState :=
  errs.foldl onError { rolledback := false, rollbacks := 0, rejectedWith := none }

/-- The first truthy error in a sequence of step results. -/
def firstErr : List (Option Nat) → Option Nat
  | [] => none
  | none :: t => firstErr t
  | some e :: _ => some e

/-- The single-row lookup statement built by exports.get. -/
def getSql (c : Ctor) (language : Option String) : String :=
  if jsTruthyStr language then
    "SELECT " ++ fieldsStr c ++ "," ++ languageFieldsStr c ++ " FROM "
      ++ c.taxonomyName ++ "_language INNER JOIN " ++ c.taxonomyName
      ++ " USING (id) WHERE id = ? AND language = ? LIMIT 1"
  else
    "SELECT " ++ fieldsStr c ++ " FROM " ++ c.taxonomyName ++ " WHERE id = ? LIMIT 1"

/-- The settled state of the Deferred returned by get: a rejection
carrying the backend error, a rejection carrying no value (the zero-row
outcome), or a resolution with a reconstructed instance. -/
inductive GetOutcome (Inst : Type) where
  | rejectedErr (e : Nat)
  | rejectedEmpty
  | resolved (x : Inst)
deriving DecidableEq

/-- The query callback of exports.get: reject with the error when the
query errored; reject with no value when the result is missing or has no
rows; otherwise resolve with constructor.create applied to the first
row. -/
def getCallback {Inst : Type} (create : Row → Inst) (err : Option Nat)
    (result : Option (List Row)) : GetOutcome Inst :=
  match err with
  | some e => .rejectedErr e
  | none =>
    match result with
    | none => .rejectedEmpty
    | some [] => .rejectedEmpty
    | some (r :: _) => .resolved (create r)

/-- A parameterized statement: the SQL text and the bound values. -/
structure SqlQuery where
  sql : String
  values : List Value
deriving DecidableEq, Repr

/-- The SELECT head and WHERE clause of searchByField, with the language
join when a language is requested. -/
def searchSelectSql (c : Ctor) (language : Option String) : String :=
  if jsTruthyStr language then
    "SELECT " ++ fieldsStr c ++ "," ++ languageFieldsStr c ++ " FROM "
      ++ c.taxonomyName ++ "_language INNER JOIN " ++ c.taxonomyName
      ++ " USING (id) WHERE ? = ? AND language = ?"
  else
    "SELECT " ++ fieldsStr c ++ " FROM " ++ c.taxonomyName ++ " WHERE ? = ?"

/-- The bound values of the WHERE clause of searchByField. -/
def searchBaseValues (field value : String) (language : Option String) : List Value :=
  match language with
  | some l => if !(l == "") then [.str field, .str value, .str l] else [.str field, .str value]
  | none => [.str field, .str value]

/-- The guard of the ordering clause: orderBy truthy and orderDirection
strictly equal to "desc" or to "asc". -/
def searchOrderCond (orderBy orderDirection : Option String) : Bool :=
  jsTruthyStr orderBy
    && (orderDirection == some "desc" || orderDirection == some "asc")

/-- The ordering clause text appended by searchByField, empty when the
guard fails. -/
def searchOrderSql (orderBy orderDirection : Option String) : String :=
  if searchOrderCond orderBy orderDirection then
    " ORDER BY ? " ++ orderDirection.getD ""
  else ""

/-- The value pushed for the ordering placeholder, none when the guard
fails. -/
def searchOrderValues (orderBy orderDirection : Option String) : List Value :=
  if searchOrderCond orderBy orderDirection then [.str (orderBy.getD "")] else []

/-- The effective limitTo: 1000 when limitTo is falsy (absent or 0) or
greater than the limitMax of 1000; the requested value otherwise. -/
def searchLimitTo (limitTo : Option Int) : Int :=
  match limitTo with
  | none => 1000
  | some n => if n = 0 ∨ n > 1000 then 1000 else n

/-- The effective limitFrom: limitFrom or 0, i.e. 0 when falsy. -/
def searchLimitFrom (limitFrom : Option Int) : Int :=
  match limitFrom with
  | none => 0
  | some n => if n = 0 then 0 else n

/-- exports.searchByField as a query builder: the statement text built by
successive concatenation (note the limit fragment is appended with no
leading space) and the bound values pushed in the same order as the
source. -/
def searchByField (c : Ctor) (field value : String)
    (language orderBy orderDirection : Option String)
    (limitFrom limitTo : Option Int) : SqlQuery :=
  { sql := searchSelectSql c language
      ++ searchOrderSql orderBy orderDirection
      ++ "LIMIT ?, ?"
    values := searchBaseValues field value language
      ++ searchOrderValues orderBy orderDirection
      ++ [.num (searchLimitFrom limitFrom), .num (searchLimitTo limitTo)] }

end SqlTransport

/-- Lookup m[k] on a JS object modelled as an association list. -/
def jsGetKey {α : Type} (m : List (String × α)) (k : String) : Option α :=
  (m.find? (fun p => p.1 == k)).map Prod.snd

/-- A concrete multilingual entity descriptor used for concrete
evaluations: the articles taxonomy of the specification's end-to-end
example. -/
def articlesCtor : Ctor :=
  { taxonomyName := "articles", fields := ["title", "authorId"], languageFields := some ["body"] }

/-- A concrete unsaved instance of the articles type: a language is set,
no id yet, and no languageFields property on the instance itself (the
declaration lives on the constructor). -/
def enInstance : EntityInst :=
  { id := none, language := some "en", languageFieldsProp := none
    props := fun k => if k == "title" then .str "X" else .undef }

/-- A concrete transport module exposing the contract operations as
function-valued properties. -/
def sampleTransport : List (String × Orm.JsVal) :=
  [("get", .fnVal 0), ("save", .fnVal 1), ("searchByField", .fnVal 2)]

/-- C3: for every searchByField call the limit bound used in the query is
at most 1000; an absent limitTo, and any limitTo above 1000, is replaced
by 1000, so limitTo 5000 builds exactly the query limitTo 1000 builds;
limitFrom defaults to 0 when absent. -/
theorem searchByField_limit_clamped (c : Ctor) (f v : String)
    (l ob od : Option String) (lf : Option Int) (lt : Option Int) (n : Int)
    (hn : n > 1000) :
    SqlTransport.searchLimitTo lt ≤ 1000
    ∧ SqlTransport.searchLimitTo none = 1000
    ∧ SqlTransport.searchLimitTo (some n) = 1000
    ∧ SqlTransport.searchByField c f v l ob od lf (some 5000)
        = SqlTransport.searchByField c f v l ob od lf (some 1000)
    ∧ SqlTransport.searchLimitFrom none = 0 := by
  refine ⟨?_, rfl, ?_, ?_, rfl⟩
  · cases lt with
    | none => norm_num [SqlTransport.searchLimitTo]
    | some m =>
      simp only [SqlTransport.searchLimitTo]
      split <;> omega
  · simp only [SqlTransport.searchLimitTo]
    split <;> omega
  · simp only [SqlTransport.searchByField]
    norm_num [SqlTransport.searchLimitTo]

/-- Witness for C3 at concrete inputs. -/
theorem searchByField_limit_clamped_witness :
    (1001 : Int) > 1000
    ∧ SqlTransport.searchLimitTo (some 7) ≤ 1000
    ∧ SqlTransport.searchLimitTo none = 1000
    ∧ SqlTransport.searchLimitTo (some 1001) = 1000
    ∧ SqlTransport.searchByField articlesCtor "title" "X" none none none none (some 5000)
        = SqlTransport.searchByField articlesCtor "title" "X" none none none none (some 1000)
    ∧ SqlTransport.searchLimitFrom none = 0 :=
  ⟨by norm_num,
    searchByField_limit_clamped articlesCtor "title" "X" none none none none (some 7) 1001
      (by norm_num)⟩

/-- C10: the falsy check on limitTo treats a requested limit of 0 like an
absent limit, so the query built for limitTo 0 is the query built with no
limitTo at all, which is the query built for limitTo 1000. -/
theorem searchByField_limitTo_zero_as_absent (c : Ctor) (f v : String)
    (l ob od : Option String) (lf : Option Int) :
    SqlTransport.searchByField c f v l ob od lf (some 0)
        = SqlTransport.searchByField c f v l ob od lf none
    ∧ SqlTransport.searchByField c f v l ob od lf (some 0)
        = SqlTransport.searchByField c f v l ob od lf (some 1000) := by
  constructor <;> norm_num [SqlTransport.searchByField, SqlTransport.searchLimitTo]

/-- The ordering guard holds exactly when orderBy is a truthy string and
orderDirection is strictly the string "asc" or the string "desc". -/
theorem searchOrderCond_iff (ob od : Option String) :
    SqlTransport.searchOrderCond ob od = true
      ↔ (jsTruthyStr ob = true ∧ (od = some "asc" ∨ od = some "desc")) := by
  simp only [SqlTransport.searchOrderCond, Bool.and_eq_true, Bool.or_eq_true, beq_iff_eq]
  tauto

/-- C5: the generated statement is the base clause, then the ordering
clause, then the limit fragment; the ordering clause is present (with the
direction text) and the orderBy value bound exactly when orderBy is given
as a truthy value and orderDirection is strictly "asc" or "desc"; for any
other orderDirection the clause is empty and orderBy is discarded from
the bound values. -/
theorem searchByField_order_clause_iff (c : Ctor) (f v : String)
    (l ob od : Option String) (lf lt : Option Int) :
    (SqlTransport.searchByField c f v l ob od lf lt).sql
        = SqlTransport.searchSelectSql c l ++ SqlTransport.searchOrderSql ob od ++ "LIMIT ?, ?"
    ∧ ((∃ d, od = some d ∧ (d = "asc" ∨ d = "desc")
          ∧ SqlTransport.searchOrderSql ob od = " ORDER BY ? " ++ d
          ∧ SqlTransport.searchOrderValues ob od = [Value.str (ob.getD "")])
        ↔ (jsTruthyStr ob = true ∧ (od = some "asc" ∨ od = some "desc")))
    ∧ (SqlTransport.searchOrderSql ob od = "" ↔ SqlTransport.searchOrderCond ob od = false)
    ∧ (SqlTransport.searchOrderValues ob od = [] ↔ SqlTransport.searchOrderCond ob od = false) := by
  have hlen : ∀ d : String, " ORDER BY ? " ++ d ≠ "" := by
    intro d h
    have := congrArg String.length h
    simp [String.length_append] at this
    exact absurd this.1 (by decide)
  refine ⟨rfl, ?_, ?_, ?_⟩
  · constructor
    · rintro ⟨d, hod, hd, hsql, hvals⟩
      by_cases hc : SqlTransport.searchOrderCond ob od = true
      · exact (searchOrderCond_iff ob od).mp hc
      · rw [SqlTransport.searchOrderSql, if_neg hc] at hsql
        exact absurd hsql.symm (hlen d)
    · intro h
      have hc : SqlTransport.searchOrderCond ob od = true := (searchOrderCond_iff ob od).mpr h
      obtain ⟨hob, hd⟩ := h
      rcases hd with hd | hd
      · exact ⟨"asc", hd, Or.inl rfl, by
          rw [SqlTransport.searchOrderSql, if_pos hc, hd]; rfl, by
          rw [SqlTransport.searchOrderValues, if_pos hc]⟩
      · exact ⟨"desc", hd, Or.inr rfl, by
          rw [SqlTransport.searchOrderSql, if_pos hc, hd]; rfl, by
          rw [SqlTransport.searchOrderValues, if_pos hc]⟩
  · rw [SqlTransport.searchOrderSql]
    by_cases hc : SqlTransport.searchOrderCond ob od = true
    · rw [if_pos hc]
      simp [hc, hlen (od.getD "")]
    · rw [if_neg hc]
      simp [Bool.eq_false_iff, hc]
  · rw [SqlTransport.searchOrderValues]
    by_cases hc : SqlTransport.searchOrderCond ob od = true
    · rw [if_pos hc]
      simp [hc]
    · rw [if_neg hc]
      simp [Bool.eq_false_iff, hc]

/-- Witness for C5 at concrete inputs. -/
theorem searchByField_order_clause_iff_witness :
    (SqlTransport.searchByField articlesCtor "title" "X" none (some "title") (some "asc") none none).sql
        = SqlTransport.searchSelectSql articlesCtor none
          ++ SqlTransport.searchOrderSql (some "title") (some "asc") ++ "LIMIT ?, ?"
    ∧ (SqlTransport.searchOrderSql (some "title") (some "bogus") = ""
        ↔ SqlTransport.searchOrderCond (some "title") (some "bogus") = false) :=
  ⟨(searchByField_order_clause_iff articlesCtor "title" "X" none (some "title") (some "asc")
      none none).1,
    (searchByField_order_clause_iff articlesCtor "title" "X" none (some "title") (some "bogus")
      none none).2.2.1⟩

/-- C9: the limit fragment is concatenated with no separating whitespace:
every generated statement is some prefix followed immediately by the text
"LIMIT ?, ?", where that prefix ends in "?" (the last placeholder of the
WHERE clause) or in the direction word "asc"/"desc"; in particular, with
no language and no orderBy the statement ends in "? = ?LIMIT ?, ?". So
the statement text never has a space immediately before its final LIMIT
keyword. -/
theorem searchByField_no_space_before_limit (c : Ctor) (f v : String)
    (l ob od : Option String) (lf lt : Option Int) :
    (∃ p, (SqlTransport.searchByField c f v l ob od lf lt).sql = p ++ "LIMIT ?, ?"
        ∧ (∃ q, p = q ++ "?" ∨ p = q ++ "asc" ∨ p = q ++ "desc"))
    ∧ (∃ q, (SqlTransport.searchByField c f v none none od lf lt).sql
        = q ++ "? = ?LIMIT ?, ?") := by
  constructor
  · refine ⟨SqlTransport.searchSelectSql c l ++ SqlTransport.searchOrderSql ob od, rfl, ?_⟩
    by_cases hc : SqlTransport.searchOrderCond ob od = true
    · rw [SqlTransport.searchOrderSql, if_pos hc]
      have hd : od = some "desc" ∨ od = some "asc" := by
        have := (searchOrderCond_iff ob od).mp hc
        tauto
      rcases hd with hd | hd
      · exact ⟨SqlTransport.searchSelectSql c l ++ " ORDER BY ? ", Or.inr (Or.inr (by
          rw [hd]; simp [String.append_assoc]))⟩
      · exact ⟨SqlTransport.searchSelectSql c l ++ " ORDER BY ? ", Or.inr (Or.inl (by
          rw [hd]; simp [String.append_assoc]))⟩
    · rw [SqlTransport.searchOrderSql, if_neg hc]
      rw [SqlTransport.searchSelectSql]
      by_cases hl : jsTruthyStr l = true
      · rw [if_pos hl]
        refine ⟨"SELECT " ++ SqlTransport.fieldsStr c ++ "," ++ SqlTransport.languageFieldsStr c
          ++ " FROM " ++ c.taxonomyName ++ "_language INNER JOIN " ++ c.taxonomyName
          ++ " USING (id) WHERE ? = ? AND language = ", Or.inl ?_⟩
        simp [String.append_assoc]
      · rw [if_neg hl]
        refine ⟨"SELECT " ++ SqlTransport.fieldsStr c ++ " FROM " ++ c.taxonomyName
          ++ " WHERE ? = ", Or.inl ?_⟩
        simp [String.append_assoc]
  · refine ⟨"SELECT " ++ SqlTransport.fieldsStr c ++ " FROM " ++ c.taxonomyName ++ " WHERE ", ?_⟩
    show SqlTransport.searchSelectSql c none ++ SqlTransport.searchOrderSql none od
        ++ "LIMIT ?, ?" = _
    rw [SqlTransport.searchOrderSql]
    rw [if_neg (by rw [SqlTransport.searchOrderCond]; simp [jsTruthyStr])]
    rw [SqlTransport.searchSelectSql]
    rw [if_neg (by simp [jsTruthyStr])]
    simp [String.append_assoc]

/-- The copy guard of setTransport is false for every key: the operand of
typeof is the key string, whose type tag is "string", never "function". -/
theorem setTransport_guard_never_true (tr : List (String × Orm.JsVal)) (k : String) :
    (Orm.hasOwnKey tr k && (Orm.jsTypeofString k == "function")) = false := by
  rw [Orm.jsTypeofString]
  rw [show (("string" == "function") : Bool) = false from rfl]
  exact Bool.and_false _

/-- C4: evaluation of setTransport. Because the source tests typeof key
(the key is a string) instead of typeof transport[key], the guard never
holds and no property of the transport is copied: the public surface is
returned unchanged for every transport, and after installing a transport
that exposes get/save/searchByField as functions, the surface still has
no get operation. -/
theorem setTransport_copies_nothing :
    (∀ ex tr, Orm.setTransport ex tr = ex)
    ∧ Orm.setTransport [] sampleTransport = []
    ∧ jsGetKey sampleTransport "get" = some (.fnVal 0)
    ∧ jsGetKey (Orm.setTransport [] sampleTransport) "get" = none := by
  have hall : ∀ ex tr, Orm.setTransport ex tr = ex := by
    intro ex tr
    rw [Orm.setTransport]
    have step : ∀ (l : List (String × Orm.JsVal)) (acc : List (String × Orm.JsVal)),
        List.foldl
          (fun acc kv =>
            if Orm.hasOwnKey tr kv.1 && (Orm.jsTypeofString kv.1 == "function") then
              jsSetKey acc kv.1 kv.2
            else acc)
          acc l = acc := by
      intro l
      induction l with
      | nil => intro acc; rfl
      | cons h t ih =>
        intro acc
        rw [List.foldl_cons, setTransport_guard_never_true tr h.1]
        simp only [Bool.false_eq_true, if_false]
        exact ih acc
    exact step tr ex
  refine ⟨hall, hall [] sampleTransport, rfl, by rw [hall [] sampleTransport]; rfl⟩

/-- C1: evaluation of the save dispatch at an instance of a type that
declares languageFields. The instance has a truthy language and its type
declares languageFields on the constructor, yet save chooses the single
non-transactional upsert, because the source tests object.languageFields
(the instance's own property, absent here) rather than the constructor's
declaration; the transactional protocol of saveWithLanguage is not
executed. -/
theorem save_dispatch_reads_instance_property :
    articlesCtor.languageFields = some ["body"]
    ∧ jsTruthyStr enInstance.language = true
    ∧ enInstance.languageFieldsProp = none
    ∧ SqlTransport.save articlesCtor enInstance
        = SqlTransport.SavePlan.singleUpsert (SqlTransport.baseUpsertSql articlesCtor)
            (Orm.data articlesCtor enInstance)
    ∧ SqlTransport.save articlesCtor enInstance
        ≠ SqlTransport.SavePlan.withLanguage (SqlTransport.baseUpsertSql articlesCtor)
            (Orm.data articlesCtor enInstance) (SqlTransport.langUpsertSql articlesCtor)
            (Orm.languageData articlesCtor enInstance) := by
  refine ⟨rfl, rfl, rfl, ?_, ?_⟩
  · rw [SqlTransport.save]
    rw [show (jsTruthyStr enInstance.language && enInstance.languageFieldsProp.isSome) = false
      from rfl]
    simp only [Bool.false_eq_true, if_false]
  · rw [SqlTransport.save]
    rw [show (jsTruthyStr enInstance.language && enInstance.languageFieldsProp.isSome) = false
      from rfl]
    simp only [Bool.false_eq_true, if_false]
    intro h
    exact SqlTransport.SavePlan.noConfusion h

/-- C2: the id back-assignment rule of the save callbacks. For an
instance with no truthy id and a backend result carrying a generated
insertId, the callback assigns that id onto the instance before the
Deferred resolves with it, and a later application leaves the assigned id
untouched (assigned exactly once); for an instance that already has an
id, the callback leaves the instance unchanged, and the statement it ran
is the idempotent upsert, whose text ends in the conflict-update clause
rather than being a bare insert. -/
theorem save_assigns_id_once (o : EntityInst) (c : Ctor) (n m k : Int)
    (h1 : jsTruthyId o.id = false) (h2 : n ≠ 0) (h3 : k ≠ 0) :
    (SqlTransport.applyInsertId o n).id = some n
    ∧ SqlTransport.applyInsertId (SqlTransport.applyInsertId o n) m
        = SqlTransport.applyInsertId o n
    ∧ SqlTransport.applyInsertId { o with id := some k } m = { o with id := some k }
    ∧ SqlTransport.saveCallback o none n
        = SqlTransport.SaveOutcome.resolvedWith (SqlTransport.applyInsertId o n)
    ∧ (∃ p, SqlTransport.baseUpsertSql c = p ++ " ON DUPLICATE KEY UPDATE") := by
  have ha : SqlTransport.applyInsertId o n = { o with id := some n } := by
    rw [SqlTransport.applyInsertId, if_pos]
    rw [h1]
    simp [h2]
  refine ⟨by rw [ha], ?_, ?_, rfl, ?_⟩
  · rw [ha, SqlTransport.applyInsertId, if_neg]
    simp [jsTruthyId, h2]
  · rw [SqlTransport.applyInsertId, if_neg]
    simp [jsTruthyId, h3]
  · refine ⟨"INSERT INTO " ++ c.taxonomyName ++ " SET ?", ?_⟩
    rw [SqlTransport.baseUpsertSql]
    simp [String.append_assoc]

/-- Witness for C2 at concrete inputs. -/
theorem save_assigns_id_once_witness :
    jsTruthyId enInstance.id = false ∧ (7 : Int) ≠ 0 ∧ (3 : Int) ≠ 0
    ∧ (SqlTransport.applyInsertId enInstance 7).id = some 7 :=
  ⟨rfl, by norm_num, by norm_num,
    (save_assigns_id_once enInstance articlesCtor 7 9 3 rfl (by norm_num) (by norm_num)).1⟩

/-- Once the transaction is rolled back, the error handler ignores every
further step result. -/
theorem foldl_onError_rolledback (l : List (Option Nat)) :
    ∀ st : SqlTransport.SaveTxnState, st.rolledback = true →
      l.foldl SqlTransport.onError st = st := by
  induction l with
  | nil => intro st _; rfl
  | cons e t ih =>
    intro st h
    have he : SqlTransport.onError st e = st := by
      cases e with
      | none => rfl
      | some x =>
        show (if st.rolledback then st else _) = st
        rw [if_pos h]
    rw [List.foldl_cons, he]
    exact ih st h

/-- Running any sequence of step results from a fresh transaction lands in
one of exactly two states: untouched when no step errored, and otherwise
rolled back once with the first error recorded on the Deferred. -/
theorem runSteps_eq (errs : List (Option Nat)) :
    SqlTransport.runSteps errs
      = match SqlTransport.firstErr errs with
        | none => ⟨false, 0, none⟩
        | some e => ⟨true, 1, some e⟩ := by
  induction errs with
  | nil => rfl
  | cons h t ih =>
    cases h with
    | none =>
      rw [show SqlTransport.runSteps (none :: t) = SqlTransport.runSteps t from rfl]
      rw [show SqlTransport.firstErr (none :: t) = SqlTransport.firstErr t from rfl]
      exact ih
    | some e =>
      rw [show SqlTransport.firstErr (some e :: t) = some e from rfl]
      rw [SqlTransport.runSteps, List.foldl_cons]
      rw [show SqlTransport.onError ⟨false, 0, none⟩ (some e) = ⟨true, 1, some e⟩ from rfl]
      exact foldl_onError_rolledback t ⟨true, 1, some e⟩ rfl

/-- C7: within one transactional save, feeding the observed step errors
in order through the error handler rolls the transaction back at most
once; it is rolled back exactly when some step errored, the Deferred is
rejected with the first error observed and with nothing else, and a step
error arriving once the transaction is already rolled back changes
nothing. -/
theorem save_first_error_single_rollback (errs : List (Option Nat))
    (st : SqlTransport.SaveTxnState) (e : Nat) (hr : st.rolledback = true) :
    (SqlTransport.runSteps errs).rollbacks ≤ 1
    ∧ (SqlTransport.runSteps errs).rejectedWith = SqlTransport.firstErr errs
    ∧ (SqlTransport.runSteps errs).rolledback = (SqlTransport.firstErr errs).isSome
    ∧ ((SqlTransport.runSteps errs).rollbacks = 1
        ↔ (SqlTransport.firstErr errs).isSome = true)
    ∧ SqlTransport.onError st (some e) = st := by
  have he : SqlTransport.onError st (some e) = st := by
    rw [SqlTransport.onError, if_pos hr]
  rw [runSteps_eq]
  cases SqlTransport.firstErr errs <;> simp [he]

/-- Witness for C7 at concrete inputs. -/
theorem save_first_error_single_rollback_witness :
    (⟨true, 1, some 4⟩ : SqlTransport.SaveTxnState).rolledback = true
    ∧ (SqlTransport.runSteps [none, some 4, some 9]).rejectedWith
        = SqlTransport.firstErr [none, some 4, some 9]
    ∧ (SqlTransport.runSteps [none, some 4, some 9]).rollbacks ≤ 1 :=
  ⟨rfl,
    (save_first_error_single_rollback [none, some 4, some 9] ⟨true, 1, some 4⟩ 9 rfl).2.1,
    (save_first_error_single_rollback [none, some 4, some 9] ⟨true, 1, some 4⟩ 9 rfl).1⟩

/-- C6: the outcome of the get callback. A backend error rejects the
future with that error; a missing or empty result set rejects the future
carrying no value (the NotFound outcome, not a resolution with an empty
value); a matching row resolves with constructor.create applied to the
first row; and the statement built by get always carries the hard
single-row limit fragment. -/
theorem get_not_found_rejects (c : Ctor) (l : Option String) {Inst : Type}
    (create : Row → Inst) (e : Nat) (r : Row) (rs : List Row) :
    (∀ res, SqlTransport.getCallback create (some e) res
        = SqlTransport.GetOutcome.rejectedErr e)
    ∧ SqlTransport.getCallback create none none
        = (SqlTransport.GetOutcome.rejectedEmpty : SqlTransport.GetOutcome Inst)
    ∧ SqlTransport.getCallback create none (some [])
        = (SqlTransport.GetOutcome.rejectedEmpty : SqlTransport.GetOutcome Inst)
    ∧ (∀ x : Inst, SqlTransport.getCallback create none (some [])
        ≠ SqlTransport.GetOutcome.resolved x)
    ∧ SqlTransport.getCallback create none (some (r :: rs))
        = SqlTransport.GetOutcome.resolved (create r)
    ∧ (∃ p, SqlTransport.getSql c l = p ++ " LIMIT 1") := by
  refine ⟨fun res => rfl, rfl, rfl, ?_, rfl, ?_⟩
  · intro x h
    exact SqlTransport.GetOutcome.noConfusion h
  · rw [SqlTransport.getSql]
    by_cases hl : jsTruthyStr l = true
    · rw [if_pos hl]
      refine ⟨"SELECT " ++ SqlTransport.fieldsStr c ++ "," ++ SqlTransport.languageFieldsStr c
        ++ " FROM " ++ c.taxonomyName ++ "_language INNER JOIN " ++ c.taxonomyName
        ++ " USING (id) WHERE id = ? AND language = ?", ?_⟩
      simp [String.append_assoc]
    · rw [if_neg hl]
      refine ⟨"SELECT " ++ SqlTransport.fieldsStr c ++ " FROM " ++ c.taxonomyName
        ++ " WHERE id = ?", ?_⟩
      simp [String.append_assoc]

/-- Witness for C6 at concrete inputs (instances reconstructed as rows
via the identity create). -/
theorem get_not_found_rejects_witness :
    SqlTransport.getCallback (fun r : Row => r) none (some [])
        = SqlTransport.GetOutcome.rejectedEmpty
    ∧ SqlTransport.getCallback (fun r : Row => r) none (some [])
        ≠ SqlTransport.GetOutcome.resolved ([] : Row)
    ∧ SqlTransport.getCallback (fun r : Row => r) (some 3) none
        = SqlTransport.GetOutcome.rejectedErr 3 :=
  ⟨(get_not_found_rejects articlesCtor none (fun r : Row => r) 3 [] []).2.2.1,
    (get_not_found_rejects articlesCtor none (fun r : Row => r) 3 [] []).2.2.2.1 [],
    (get_not_found_rejects articlesCtor none (fun r : Row => r) 3 [] []).1 none⟩

/-- Assigning a key on a JS object yields exactly the old keys plus that
key: an existing key is overwritten in place, a new key is appended. -/
theorem mem_jsKeys_jsSetKey {α : Type} (m : List (String × α)) (k : String) (v : α)
    (x : String) :
    x ∈ jsKeys (jsSetKey m k v) ↔ x ∈ jsKeys m ∨ x = k := by
  rw [jsSetKey]
  by_cases h : (m.any (fun p => p.1 == k)) = true
  · rw [if_pos h]
    have hk : k ∈ jsKeys m := by
      obtain ⟨p, hp, hpk⟩ := List.any_eq_true.mp h
      have hpe : p.1 = k := by simpa using hpk
      exact hpe ▸ List.mem_map_of_mem Prod.fst hp
    have hmap : jsKeys (m.map fun p => if p.1 == k then (k, v) else p) = jsKeys m := by
      rw [jsKeys, jsKeys, List.map_map]
      apply List.map_congr_left
      intro p _
      by_cases hpk : p.1 = k
      · simp [hpk]
      · simp [hpk]
    rw [hmap]
    constructor
    · exact Or.inl
    · rintro (hx | rfl)
      · exact hx
      · exact hk
  · rw [if_neg h]
    rw [jsKeys, jsKeys, List.map_append]
    simp

/-- The keys accumulated by the projection loop are the starting keys
plus the field names iterated over. -/
theorem mem_jsKeys_fold {α : Type} (fs : List String) (g : String → α) (x : String) :
    ∀ m : List (String × α),
      x ∈ jsKeys (fs.foldl (fun values f => jsSetKey values f (g f)) m)
        ↔ x ∈ jsKeys m ∨ x ∈ fs := by
  induction fs with
  | nil => intro m; simp
  | cons f t ih =>
    intro m
    rw [List.foldl_cons, ih (jsSetKey m f (g f)), mem_jsKeys_jsSetKey]
    simp only [List.mem_cons]
    tauto

/-- C8: the base-data projection emits exactly the declared fields as
keys and the language-data projection exactly the declared
languageFields, an empty object when the type declares none; neither
projection emits a key outside the descriptor's declared names, whatever
other properties the instance carries. -/
theorem projection_keys_exactly_declared (c : Ctor) (o : EntityInst) (x : String) :
    (x ∈ jsKeys (Orm.data c o) ↔ x ∈ c.fields)
    ∧ (x ∈ jsKeys (Orm.languageData c o) ↔ x ∈ c.languageFields.getD [])
    ∧ (c.languageFields = none → Orm.languageData c o = []) := by
  refine ⟨?_, ?_, ?_⟩
  · rw [Orm.data, mem_jsKeys_fold]
    simp [jsKeys]
  · cases hc : c.languageFields with
    | none =>
      rw [show Orm.languageData c o
        = match c.languageFields with
          | none => []
          | some fs => fs.foldl (fun values f => jsSetKey values f (o.propGet f)) []
        from rfl]
      rw [hc]
      simp [jsKeys]
    | some fs =>
      rw [show Orm.languageData c o
        = match c.languageFields with
          | none => []
          | some fs => fs.foldl (fun values f => jsSetKey values f (o.propGet f)) []
        from rfl]
      rw [hc, mem_jsKeys_fold]
      simp [jsKeys]
  · intro h
    rw [show Orm.languageData c o
      = match c.languageFields with
        | none => []
        | some fs => fs.foldl (fun values f => jsSetKey values f (o.propGet f)) []
      from rfl]
    rw [h]

/-- Witness for C8 at concrete inputs. -/
theorem projection_keys_exactly_declared_witness :
    ("title" ∈ jsKeys (Orm.data articlesCtor enInstance) ↔ "title" ∈ articlesCtor.fields)
    ∧ ("body" ∈ jsKeys (Orm.languageData articlesCtor enInstance)
        ↔ "body" ∈ articlesCtor.languageFields.getD []) :=
  ⟨(projection_keys_exactly_declared articlesCtor enInstance "title").1,
    (projection_keys_exactly_declared articlesCtor enInstance "body").2.1⟩
